import Mathlib

/-!
HTML renderer of `fiets` (`src/html.cpp`): a shallow embedding of the renderer
and the properties proved about it.

A `std::string` is modelled by a Lean `String` read as its sequence of `char`
elements: every element of the C++ string is one `Char` of the Lean string
(the byte `b` is the character with code `b`), so `length`, positions and
element-wise operations agree with the C++ ones.
-/

namespace Fiets

/-! ## `std::string` operations used by the renderer -/

/-- Position of the first element satisfying `p`; `none` stands for
`std::string::npos` (no such element). -/
def find_first (p : Char → Bool) : List Char → Option Nat
  | [] => none
  | c :: cs => if p c then some 0 else (find_first p cs).map (· + 1)

/-- Model of `s.find_first_of(chars)`: first position holding an element of `chars`. -/
def find_first_of (s chars : String) : Option Nat :=
  find_first (fun c => chars.data.contains c) s.data

/-- Model of `s.find_first_not_of(chars)`: first position holding an element
that is not in `chars`. -/
def find_first_not_of (s chars : String) : Option Nat :=
  find_first (fun c => !chars.data.contains c) s.data

/-- Model of `s.substr(pos, count)` for `pos <= s.size()`. -/
def substr (s : String) (pos count : Nat) : String :=
  ⟨(s.data.drop pos).take count⟩

/-- Model of `s.substr(pos)` for `pos <= s.size()`. -/
def substr_from (s : String) (pos : Nat) : String :=
  ⟨s.data.drop pos⟩

/-- Model of reading `s[pos]` for `pos < s.size()`. -/
def char_at (s : String) (pos : Nat) : Char :=
  s.data.getD pos '\x00'

/-- Model of the assignment `s[pos] = c` for `pos < s.size()`. -/
def set_at (s : String) (pos : Nat) (c : Char) : String :=
  ⟨s.data.set pos c⟩

/-- Model of `std::to_string` on an unsigned (`size_t`) value. -/
def to_string_size (n : Nat) : String := toString n

/-- Model of `std::to_string` on a signed integer value. -/
def to_string_int (n : Int) : String := toString n

/-! ## `as_html(const std::string&)` (html.cpp 29-37) -/

/-- The `while (offs != std::string::npos)` loop of `as_html(const std::string&)`:
`copy` is the loop variable, the position `offs` is recomputed from `copy` at
the head of every iteration, and `fuel` bounds the number of iterations. -/
def as_html_string_loop : Nat → String → String
  | 0, copy => copy
  | fuel + 1, copy =>
    match find_first_of copy "<>" with
    | none => copy
    | some offs =>
      as_html_string_loop fuel
        (substr copy 0 offs ++ (if char_at copy offs = '<' then "&lt;" else "&gt;")
          ++ substr_from copy (offs + 1))

/-- Embedding of `as_html(const std::string& s)`. Every iteration removes one
of the elements `<`, `>` of `copy`, so `s.length` iterations always suffice
(`as_html_string_loop_fuel`). -/
def as_html_string (s : String) : String :=
  as_html_string_loop s.length s

/-- The plain-string rule in the words of the specification: each `<` becomes
`&lt;`, each `>` becomes `&gt;`, every other character is kept. -/
def escape_char (c : Char) : List Char :=
  if c = '<' then "&lt;".data else if c = '>' then "&gt;".data else [c]

/-- Character-by-character escaping of a whole string, as the specification words it. -/
def escape_spec (s : String) : String :=
  ⟨s.data.flatMap escape_char⟩

/-! ## `as_id` (html.cpp 115-124) -/

/-- The set of characters that `as_id` leaves alone. -/
def id_chars : String :=
  "abcdefghijklmnopqrstuvwxyzABCDEFGHIJKLMNOPQRSTUVWXYZ0123456789_-"

/-- The `while (pos != std::string::npos)` loop of `as_id`: `id` is the loop
variable, `pos` is recomputed from `id` at the head of every iteration, and
`fuel` bounds the number of iterations. -/
def as_id_loop : Nat → String → String
  | 0, id => id
  | fuel + 1, id =>
    match find_first_not_of id id_chars with
    | none => id
    | some pos =>
      as_id_loop fuel (if char_at id pos = '+' then set_at id pos 'p' else set_at id pos '-')

/-- Embedding of `as_id(std::string_view name)`. Every iteration turns one
disallowed element into an allowed one, so `name.length` iterations always
suffice (`as_id_loop_fuel`). -/
def as_id (name : String) : String :=
  as_id_loop name.length name

/-- What the loop of `as_id` does to one element: an element of `id_chars` is
never selected and stays, a selected `+` is overwritten with `p`, any other
selected element with `-`. -/
def as_id_char (c : Char) : Char :=
  if id_chars.data.contains c then c else if c = '+' then 'p' else '-'

/-- The character class `[A-Za-z0-9_-]` of the specification. -/
def in_id_class (c : Char) : Bool :=
  ('A' ≤ c && c ≤ 'Z') || ('a' ≤ c && c ≤ 'z') || ('0' ≤ c && c ≤ '9') || c == '_' || c == '-'

/-- The sanitization rule for one character in the words of the specification:
`+` becomes `p`, every other character outside `[A-Za-z0-9_-]` becomes `-`,
a character of the class is kept. -/
def sanitize_char (c : Char) : Char :=
  if c = '+' then 'p' else if in_id_class c then c else '-'

/-! ## Document model

The node types are declared in `html.h`; the types below carry the members
that `html.cpp` reads. -/

mutual
/-- Modelled from the spec: the declaration of `Text` (`html.h`) is missing; a
Text is an ordered sequence `seq` of inline spans. -/
inductive Text where
  | mk (seq : List Span)
/-- Modelled from the spec: the declaration of the span variant (`html.h`) is
missing; a span is a plain `std::string`, an `Insertion` or `Deletion` holding
an inner Text `text`, a `Reference` holding `index` and `text`, or an
`Identifier` or `CodeSpan` holding `text`. -/
inductive Span where
  | string (s : String)
  | Insertion (text : Text)
  | Deletion (text : Text)
  | Reference (index : Int) (text : String)
  | Identifier (text : String)
  | CodeSpan (text : String)
end

/-- The member `seq` of a Text. -/
def Text.seq : Text → List Span
  | .mk seq => seq

/-- Modelled from the spec: the declaration of `Table` (`html.h`) is missing;
`entries` is the sequence of rows, each a sequence of Text cells. -/
structure Table where
  entries : List (List Text)

/-- Modelled from the spec: the declaration of the content-item variant
(`html.h`) is missing; an item is a bare Text or one of the block elements
`Code` (member `body`), `List` and `OrderedList` (member `entries`), `Table`,
and the markers `References`, `TOC` and `IdentifierDefinition`. -/
inductive Entry where
  | Text (t : Text)
  | Code (body : String)
  | List (entries : List Text)
  | OrderedList (entries : List Text)
  | Table (t : Table)
  | References
  | TOC
  | IdentifierDefinition

/-- Modelled from the spec: the declaration of `Chapter` (`html.h`) is missing;
a chapter has a heading `level`, a title `text`, content `entries` and
`subchapters`. -/
inductive Chapter where
  | mk (level : Int) (text : String) (entries : List Entry) (subchapters : List Chapter)

/-- The member `level` of a Chapter. -/
def Chapter.level : Chapter → Int
  | .mk level _ _ _ => level

/-- The member `text` (the title) of a Chapter. -/
def Chapter.text : Chapter → String
  | .mk _ text _ _ => text

/-- The member `entries` of a Chapter. -/
def Chapter.entries : Chapter → List Entry
  | .mk _ _ entries _ => entries

/-- The member `subchapters` of a Chapter. -/
def Chapter.subchapters : Chapter → List Chapter
  | .mk _ _ _ subchapters => subchapters

/-- Modelled from the spec: the declaration of the elements of
`Document::references` (`html.h`) is missing; `as_html(const References&)`
reads their members `name` and `text` (the URL). -/
structure ReferenceEntry where
  name : String
  text : String

/-- Modelled from the spec: the declaration of `Document` (`html.h`) is missing;
a document has a title `text`, top-level content `entries`, top-level
`subchapters` and the list `references`. -/
structure Document where
  text : String
  entries : List Entry
  subchapters : List Chapter
  references : List ReferenceEntry

/-! ## Inline rendering (html.cpp 9-27, 52-58) -/

mutual
/-- Embedding of `as_html(const Text& l)`: `accum` starts empty and receives
the rendering of every span in order. -/
def as_html_Text : Text → String
  | .mk seq => as_html_Text_loop "" seq
/-- The `for (auto& e : l.seq)` loop of `as_html(const Text&)`. -/
def as_html_Text_loop (accum : String) : List Span → String
  | [] => accum
  | e :: es => as_html_Text_loop (accum ++ as_html_Span e) es
/-- The `std::visit` dispatch of `as_html(const Text&)` over the span
overloads of `as_html`. -/
def as_html_Span : Span → String
  | .string s => as_html_string s
  | .Insertion text => "<span class=\"new\">" ++ as_html_Text text ++ "</span>"
  | .Deletion text => "<span class=\"delete\">" ++ as_html_Text text ++ "</span>"
  | .Reference index text => "<a href=\"" ++ text ++ "\">[" ++ to_string_int index ++ "]</a>"
  | .Identifier text => "<span class=\"identifier\">" ++ text ++ "</span>"
  | .CodeSpan text => "<span class=\"code\">" ++ text ++ "</span>"
end

/-! ## Block rendering (html.cpp 39-50, 60-113) -/

/-- Embedding of `as_html(const Code& c)`. -/
def as_html_Code (body : String) : String :=
  "<code><span class=\"code\">" ++ body ++ "</span></code>"

/-- Embedding of `as_html(const List& l)`. -/
def as_html_List (entries : List Text) : String :=
  entries.foldl (fun accum item => accum ++ ("<li>" ++ as_html_Text item ++ "</li>")) "<ul>"
    ++ "</ul>"

/-- Embedding of `as_html(const OrderedList& l)`. -/
def as_html_OrderedList (entries : List Text) : String :=
  entries.foldl (fun accum item => accum ++ ("<li>" ++ as_html_Text item ++ "</li>")) "<ol>"
    ++ "</ol>"

/-- Embedding of `as_html(const TOC&)`. -/
def as_html_TOC : String := "TODO"

/-- Embedding of `as_html(const IdentifierDefinition&)`. -/
def as_html_IdentifierDefinition : String := "TODO"

/-- One step of the `for (auto& v : l.entries[1])` loop of
`as_html(const Table&)`: the new value of `has_header` after looking at cell `v`. -/
def has_header_step (has_header : Bool) (v : Text) : Bool :=
  if v.seq.length ≠ 1 then false
  else
    match v.seq.head? with
    | some (.string s) => if s ≠ "-" then false else has_header
    | _ => false

/-- The value of `has_header` computed at the start of `as_html(const Table&)`. -/
def has_header (l : Table) : Bool :=
  if l.entries.length < 3 then false
  else (l.entries.getD 1 []).foldl has_header_step true

/-- The body of the `for (;n < l.entries.size(); n++)` loop of
`as_html(const Table&)` for one row. -/
def as_html_Table_row (accum : String) (row : List Text) : String :=
  row.foldl (fun accum e => accum ++ ("<td>" ++ as_html_Text e ++ "</td>")) (accum ++ "<tr>")
    ++ "</tr>"

/-- Embedding of `as_html(const Table& l)`. -/
def as_html_Table (l : Table) : String :=
  let accum := "<table>"
  let n := 0
  let state : String × Nat :=
    if has_header l then
      let accum := accum ++ "<thead><tr>"
      let accum :=
        (l.entries.getD n []).foldl (fun accum e => accum ++ ("<th>" ++ as_html_Text e ++ "</th>"))
          accum
      (accum ++ "</tr></thead>", 2)
    else (accum, n)
  let accum := state.1 ++ "<tbody>"
  let accum := (l.entries.drop state.2).foldl as_html_Table_row accum
  accum ++ "</tbody></table>"

/-- The body of `as_html(const References&)` once `doc` has been dereferenced
to the document `d`: the ordered list of the entries of `d.references`. -/
def references_list (d : Document) : String :=
  d.references.foldl
    (fun accum ref => accum ++ ("<li><a href=\"" ++ ref.text ++ "\">" ++ ref.name ++ " ("
      ++ ref.text ++ ")</a></li>")) "<ol>" ++ "</ol>"

/-- Embedding of `as_html(const References&)`. The parameter `doc` is the
value of the file-level pointer `doc`; dereferencing the null pointer has no
defined result, which is the value `none`. -/
def as_html_References (doc : Option Document) : Option String :=
  match doc with
  | none => none
  | some d => some (references_list d)

/-! ## Chapter and Document traversal (html.cpp 126-167) -/

/-- The `std::visit` dispatch used by `as_html(const Document&)` on a content
item: every alternative goes to its `as_html` overload. -/
def as_html_Entry (doc : Option Document) : Entry → Option String
  | .Text t => some (as_html_Text t)
  | .Code body => some (as_html_Code body)
  | .List entries => some (as_html_List entries)
  | .OrderedList entries => some (as_html_OrderedList entries)
  | .Table t => some (as_html_Table t)
  | .References => as_html_References doc
  | .TOC => some as_html_TOC
  | .IdentifierDefinition => some as_html_IdentifierDefinition

/-- The `std::visit` dispatch used by `as_html(std::string, const Chapter&)` on
a content item: a Text is wrapped in a paragraph, every other alternative
goes to its `as_html` overload. -/
def as_html_Chapter_Entry (doc : Option Document) : Entry → Option String
  | .Text t => some ("<p>" ++ as_html_Text t ++ "</p>")
  | e => as_html_Entry doc e

/-- A loop `for (auto& el : entries) accum += render(el)` whose body may have
no defined result. -/
def entries_loop (render : Entry → Option String) (accum : String) : List Entry → Option String
  | [] => some accum
  | el :: els =>
    match render el with
    | none => none
    | some r => entries_loop render (accum ++ r) els

/-- The heading written by the first statement of
`as_html(std::string, const Chapter&)`. -/
def heading (name : String) (ch : Chapter) : String :=
  "<h" ++ to_string_int ch.level ++ " data-number=\"" ++ name ++ "\" id=\"" ++ as_id ch.text
    ++ "\"><span class=\"header-section-number\">" ++ name ++ "</span> " ++ ch.text
    ++ "<a href=\"#" ++ as_id ch.text ++ "\" class=\"self-link\"></a></h"
    ++ to_string_int ch.level ++ ">"

mutual
/-- Embedding of `as_html(std::string name, const Chapter& ch)`; `doc` is the
value of the file-level pointer `doc` during the call. -/
def as_html_Chapter (doc : Option Document) (name : String) : Chapter → Option String
  | .mk level text entries subchapters =>
    match entries_loop (as_html_Chapter_Entry doc)
        ("" ++ heading name (.mk level text entries subchapters)) entries with
    | none => none
    | some accum => as_html_subchapters doc name accum 0 subchapters
/-- The loop `for (size_t n = 0; n < ch.subchapters.size(); n++)` of
`as_html(std::string, const Chapter&)`; the list holds `subchapters[n]` and
the elements after it. -/
def as_html_subchapters (doc : Option Document) (name : String) (accum : String) (n : Nat) :
    List Chapter → Option String
  | [] => some accum
  | sub :: subs =>
    match as_html_Chapter doc (name ++ "." ++ to_string_size (n + 1)) sub with
    | none => none
    | some r => as_html_subchapters doc name (accum ++ r) (n + 1) subs
end

/-- The constant `html_header1` (html.cpp 169-176). -/
def html_header1 : String :=
  "<!DOCTYPE html>\n"
  ++ "<html xmlns=\"http://www.w3.org/1999/xhtml\">\n"
  ++ "<head>\n"
  ++ "<meta http-equiv=\"content-type\" content=\"text/html; charset=UTF-8\">\n"
  ++ "<meta charset=\"utf-8\">\n"
  ++ "<meta name=\"generator\" content=\"dascandy/fiets\">\n"
  ++ "<title>\n"

/-- The constant `html_header2` (html.cpp 178-248); the two bytes of the
section sign are written as two elements. -/
def html_header2 : String :=
  "</title>\n"
  ++ "  <style type=\"text/css\">\n"
  ++ "body \x7b\n"
  ++ "  margin: 5em;\n"
  ++ "  font-family: sans-serif;\n"
  ++ "  hyphens: auto;\n"
  ++ "  line-height: 1.35;\n"
  ++ "\x7d\n"
  ++ "ul \x7b\n"
  ++ "  padding-left: 2em;\n"
  ++ "\x7d\n"
  ++ "h1, h2, h3, h4 \x7b\n"
  ++ "  position: relative;\n"
  ++ "  line-height: 1;\n"
  ++ "\x7d\n"
  ++ "a.self-link \x7b\n"
  ++ "  position: absolute;\n"
  ++ "  top: 0;\n"
  ++ "  left: calc(-1 * (3.5rem - 26px));\n"
  ++ "  width: calc(3.5rem - 26px);\n"
  ++ "  height: 2em;\n"
  ++ "  text-align: center;\n"
  ++ "  border: none;\n"
  ++ "  transition: opacity .2s;\n"
  ++ "  opacity: .5;\n"
  ++ "  font-family: sans-serif;\n"
  ++ "  font-weight: normal;\n"
  ++ "  font-size: 83%;\n"
  ++ "\x7d\n"
  ++ "a.self-link:hover \x7b opacity: 1; \x7d\n"
  ++ "a.self-link::before \x7b content: \"\xc2\xa7\"; \x7d\n"
  ++ "span.identifier \x7b\n"
  ++ "  font-style: italic;\n"
  ++ "\x7d\n"
  ++ "span.new \x7b\n"
  ++ "  text-decoration: underline;\n"
  ++ "  background-color: #006e28;\n"
  ++ "\x7d\n"
  ++ "span.code \x7b\n"
  ++ "  font-family: Courier New, monospace;\n"
  ++ "  background-color: #e8e8e8;\n"
  ++ "  white-space: pre;\n"
  ++ "\x7d\n"
  ++ "span.delete \x7b\n"
  ++ "  text-decoration: line-through;\n"
  ++ "  background-color: #bf0303;\n"
  ++ "\x7d\n"
  ++ "p.indent \x7b\n"
  ++ "  margin-left: 50px;\n"
  ++ "\x7d\n"
  ++ "table \x7b\n"
  ++ "  border: 1px solid black;\n"
  ++ "  border-collapse: collapse;\n"
  ++ "  margin-left: auto;\n"
  ++ "  margin-right: auto;\n"
  ++ "  margin-top: 0.8em;\n"
  ++ "  text-align: left;\n"
  ++ "  hyphens: none; \n"
  ++ "\x7d\n"
  ++ "td, th \x7b\n"
  ++ "  padding-left: 1em;\n"
  ++ "  padding-right: 1em;\n"
  ++ "  vertical-align: top;\n"
  ++ "\x7d\n"
  ++ "th \x7b\n"
  ++ "  border-bottom: 1px solid black;\n"
  ++ "\x7d\n"
  ++ "</style>\n"
  ++ "</head>\n"
  ++ "<body>\n"

/-- The constant `html_footer` (html.cpp 251). -/
def html_footer : String := "</body></html>\n"

/-- The loop `for (auto& subch : ch.subchapters)` of `as_html(const Document&)`
with its counter `n`. -/
def as_html_Document_chapters (doc : Option Document) (accumulator : String) (n : Nat) :
    List Chapter → Option String
  | [] => some accumulator
  | subch :: rest =>
    match as_html_Chapter doc (to_string_size n) subch with
    | none => none
    | some r => as_html_Document_chapters doc (accumulator ++ r) (n + 1) rest

/-- Embedding of `as_html(const Document& ch)` with the file-level pointer
`doc` passed explicitly: the argument `_doc` is its value before the call, and
the result is the returned string together with the value of the pointer after
the call (`none` in the result: some step had no defined result). -/
def as_html_Document (ch : Document) (_doc : Option Document) :
    Option (String × Option Document) :=
  let doc : Option Document := some ch
  let accumulator := html_header1
  let accumulator := accumulator ++ ch.text
  let accumulator := accumulator ++ html_header2
  let accumulator :=
    accumulator ++ ("<h1 class=\"title\" style=\"text-align:center\">" ++ ch.text ++ "</h1>")
  match entries_loop (as_html_Entry doc) accumulator ch.entries with
  | none => none
  | some accumulator =>
    match as_html_Document_chapters doc accumulator 1 ch.subchapters with
    | none => none
    | some accumulator =>
      let accumulator := accumulator ++ html_footer
      let doc : Option Document := none
      some (accumulator, doc)

/-! ## Predicates and renderings in the words of the specification -/

/-- Model of `std::holds_alternative<std::string>` on a span. -/
def holds_string : Span → Bool
  | .string _ => true
  | _ => false

/-- A cell that is a Text of exactly one span, the plain string `-`. -/
def is_dash_cell (v : Text) : Bool :=
  match v.seq with
  | [.string s] => s == "-"
  | _ => false

/-- A row of header cells: each cell rendered and wrapped in `<th>`. -/
def header_cells (row : List Text) : String :=
  String.join (row.map (fun c => "<th>" ++ as_html_Text c ++ "</th>"))

/-- A body row: `<tr>`, each cell rendered and wrapped in `<td>`, `</tr>`. -/
def body_row (row : List Text) : String :=
  "<tr>" ++ String.join (row.map (fun c => "<td>" ++ as_html_Text c ++ "</td>")) ++ "</tr>"

/-- Concatenation of a sequence of renderings in order; it has no defined
result as soon as one of the renderings has none. -/
def concat_results : List (Option String) → Option String
  | [] => some ""
  | none :: _ => none
  | some r :: rs =>
    match concat_results rs with
    | none => none
    | some t => some (r ++ t)

/-- The rendering of a content item by its own block rule while the pointer
`doc` is bound to the document `d`. -/
def entry_html (d : Document) : Entry → String
  | .Text t => as_html_Text t
  | .Code body => as_html_Code body
  | .List entries => as_html_List entries
  | .OrderedList entries => as_html_OrderedList entries
  | .Table t => as_html_Table t
  | .References => references_list d
  | .TOC => as_html_TOC
  | .IdentifierDefinition => as_html_IdentifierDefinition

/-- The rendering of a content item of a Chapter while the pointer `doc` is
bound to the document `d`: a bare Text is wrapped in a paragraph, any other
item is rendered by its own block rule. -/
def chapter_entry_html (d : Document) : Entry → String
  | .Text t => "<p>" ++ as_html_Text t ++ "</p>"
  | e => entry_html d e

mutual
/-- The rendering of a chapter with number `name` while the pointer `doc` is
bound to the document `d`: the heading, the content items in order, then the
sub-chapters in order. -/
def chapter_html (d : Document) (name : String) : Chapter → String
  | .mk level text entries subchapters =>
    heading name (.mk level text entries subchapters)
      ++ String.join (entries.map (chapter_entry_html d))
      ++ subchapters_html d name 0 subchapters
/-- The renderings of the sub-chapters at positions `n`, `n + 1`, ... of a
chapter with number `name`: the one at position `i` has the number `name`,
a dot, and `i + 1` in decimal. -/
def subchapters_html (d : Document) (name : String) (n : Nat) : List Chapter → String
  | [] => ""
  | sub :: subs =>
    chapter_html d (name ++ "." ++ to_string_size (n + 1)) sub
      ++ subchapters_html d name (n + 1) subs
end

/-- The sequence `l` rearranged by the index list `p`: position `k` of the
result holds the element of `l` at index `p[k]`. For `p` a permutation of the
indices of `l` this is the corresponding permutation of `l`. -/
def permute {α : Type} (p : List Nat) (l : List α) : List α :=
  p.filterMap (fun i => l[i]?)

/-! ## Lemmas on the string operations -/

theorem find_first_none {p : Char → Bool} {l : List Char} (h : find_first p l = none) :
    ∀ x ∈ l, p x = false := by
  induction l with
  | nil => simp
  | cons c cs ih =>
    simp only [find_first] at h
    by_cases hc : p c = true
    · simp [hc] at h
    · simp only [hc, Bool.false_eq_true, if_false, Option.map_eq_none'] at h
      intro x hx
      rcases List.mem_cons.mp hx with rfl | hx
      · simpa using hc
      · exact ih h x hx

theorem find_first_some {p : Char → Bool} {l : List Char} {i : Nat} (h : find_first p l = some i) :
    ∃ pre c post, l = pre ++ c :: post ∧ pre.length = i ∧ (∀ x ∈ pre, p x = false) ∧ p c = true := by
  induction l generalizing i with
  | nil => simp [find_first] at h
  | cons c cs ih =>
    simp only [find_first] at h
    by_cases hc : p c = true
    · simp only [hc, if_true, Option.some.injEq] at h
      exact ⟨[], c, cs, rfl, by simpa using h, by simp, hc⟩
    · simp only [hc, Bool.false_eq_true, if_false, Option.map_eq_some'] at h
      obtain ⟨j, hj, rfl⟩ := h
      obtain ⟨pre, d, post, hl, hlen, hpre, hd⟩ := ih hj
      refine ⟨c :: pre, d, post, by simp [hl], by simp [hlen], ?_, hd⟩
      intro x hx
      rcases List.mem_cons.mp hx with rfl | hx
      · simpa using hc
      · exact hpre x hx

/-- Predicate of the elements `as_html(const std::string&)` searches for. -/
theorem getD_append_cons (pre : List Char) (c : Char) (post : List Char) (d : Char) :
    (pre ++ c :: post).getD pre.length d = c := by
  induction pre with
  | nil => rfl
  | cons x xs ih => simpa using ih

theorem special_iff (c : Char) : "<>".data.contains c = true ↔ c = '<' ∨ c = '>' := by
  rw [List.contains, List.elem_iff]
  show c ∈ ['<', '>'] ↔ _
  simp

theorem escape_char_of_special {c : Char} (h : "<>".data.contains c = true) :
    escape_char c = (if c = '<' then "&lt;" else "&gt;" : String).data := by
  rcases (special_iff c).mp h with rfl | rfl <;> simp [escape_char]

theorem escape_char_of_not_special {c : Char} (h : "<>".data.contains c = false) :
    escape_char c = [c] := by
  have h1 : ¬ (c = '<' ∨ c = '>') := by
    rw [← special_iff, h]; simp
  rw [not_or] at h1
  simp [escape_char, h1.1, h1.2]

theorem flatMap_escape_of_no_special {l : List Char}
    (h : ∀ x ∈ l, "<>".data.contains x = false) : l.flatMap escape_char = l := by
  induction l with
  | nil => rfl
  | cons c cs ih =>
    rw [List.flatMap_cons, escape_char_of_not_special (h c (List.mem_cons_self _ _)),
      ih (fun x hx => h x (List.mem_cons_of_mem _ hx))]
    rfl

theorem countP_of_no_special {p : Char → Bool} {l : List Char}
    (h : ∀ x ∈ l, p x = false) : l.countP p = 0 := by
  rw [List.countP_eq_zero]
  intro x hx; simp [h x hx]

theorem replacement_clean (c : Char) :
    ∀ x ∈ (if c = '<' then "&lt;" else "&gt;" : String).data, "<>".data.contains x = false := by
  by_cases hc : c = '<' <;> simp [hc]

theorem as_html_string_loop_data (fuel : Nat) (copy : String)
    (h : copy.data.countP (fun c => "<>".data.contains c) ≤ fuel) :
    (as_html_string_loop fuel copy).data = copy.data.flatMap escape_char := by
  induction fuel generalizing copy with
  | zero =>
    have h0 : ∀ x ∈ copy.data, "<>".data.contains x = false := by
      have := List.countP_eq_zero.mp (Nat.le_zero.mp h)
      intro x hx; simpa using this x hx
    rw [as_html_string_loop, flatMap_escape_of_no_special h0]
  | succ fuel ih =>
    rw [as_html_string_loop]
    cases hf : find_first_of copy "<>" with
    | none =>
      simp only
      rw [flatMap_escape_of_no_special (find_first_none hf)]
    | some offs =>
      simp only
      obtain ⟨pre, c, post, hl, hlen, hpre, hc⟩ := find_first_some hf
      subst hlen
      have hat : char_at copy pre.length = c := by
        rw [char_at, hl, getD_append_cons]
      have hnew : (substr copy 0 pre.length
          ++ (if char_at copy pre.length = '<' then "&lt;" else "&gt;")
          ++ substr_from copy (pre.length + 1)).data
          = pre ++ (if c = '<' then "&lt;" else "&gt;" : String).data ++ post := by
        simp [substr, substr_from, hl, hat]
      have hcount : (pre ++ (if c = '<' then "&lt;" else "&gt;" : String).data ++ post).countP
          (fun c => "<>".data.contains c) ≤ fuel := by
        rw [hl] at h
        simp only [List.countP_append, List.countP_cons, hc, if_true] at h
        simp only [List.countP_append, countP_of_no_special (replacement_clean c)]
        omega
      rw [ih _ (by rw [hnew]; exact hcount), hnew, hl]
      simp only [List.flatMap_append, List.flatMap_cons]
      rw [flatMap_escape_of_no_special (replacement_clean c), escape_char_of_special hc]
      simp

theorem set_append_cons (pre : List Char) (c : Char) (post : List Char) (d : Char) :
    (pre ++ c :: post).set pre.length d = pre ++ d :: post := by
  induction pre with
  | nil => rfl
  | cons x xs ih => simp [ih]

theorem as_id_char_allowed (c : Char) : id_chars.data.contains (as_id_char c) = true := by
  unfold as_id_char
  by_cases h : id_chars.data.contains c = true
  · rw [if_pos h]; exact h
  · rw [if_neg h]
    by_cases hp : c = '+'
    · rw [if_pos hp]; decide
    · rw [if_neg hp]; decide

theorem as_id_char_of_allowed {c : Char} (h : id_chars.data.contains c = true) :
    as_id_char c = c := by
  rw [as_id_char, if_pos h]

theorem as_id_char_idem (c : Char) : as_id_char (as_id_char c) = as_id_char c :=
  as_id_char_of_allowed (as_id_char_allowed c)

theorem map_sanitize_of_allowed {l : List Char}
    (h : ∀ x ∈ l, (!id_chars.data.contains x) = false) : l.map as_id_char = l := by
  induction l with
  | nil => rfl
  | cons c cs ih =>
    have hc : id_chars.data.contains c = true := by
      have := h c (List.mem_cons_self _ _)
      revert this; cases id_chars.data.contains c <;> simp
    rw [List.map_cons, as_id_char_of_allowed hc,
      ih (fun x hx => h x (List.mem_cons_of_mem _ hx))]

theorem as_id_loop_data (fuel : Nat) (id : String)
    (h : id.data.countP (fun c => !id_chars.data.contains c) ≤ fuel) :
    (as_id_loop fuel id).data = id.data.map as_id_char := by
  induction fuel generalizing id with
  | zero =>
    have h0 : ∀ x ∈ id.data, (!id_chars.data.contains x) = false := by
      have := List.countP_eq_zero.mp (Nat.le_zero.mp h)
      intro x hx; simpa using this x hx
    rw [as_id_loop, map_sanitize_of_allowed h0]
  | succ fuel ih =>
    rw [as_id_loop]
    cases hf : find_first_not_of id id_chars with
    | none =>
      simp only
      rw [map_sanitize_of_allowed (find_first_none hf)]
    | some pos =>
      simp only
      obtain ⟨pre, c, post, hl, hlen, hpre, hc⟩ := find_first_some hf
      subst hlen
      have hat : char_at id pre.length = c := by
        rw [char_at, hl, getD_append_cons]
      have hsan : as_id_char c = if c = '+' then 'p' else '-' := by
        have : ¬ id_chars.data.contains c = true := by
          intro hcon; rw [hcon] at hc; exact absurd hc (by decide)
        rw [as_id_char, if_neg this]
      have hnew : (if char_at id pre.length = '+' then set_at id pre.length 'p'
          else set_at id pre.length '-').data = pre ++ as_id_char c :: post := by
        rw [hat, hsan]
        by_cases hp : c = '+' <;> simp [hp, set_at, hl, set_append_cons]
      have hcount : (pre ++ as_id_char c :: post).countP
          (fun c => !id_chars.data.contains c) ≤ fuel := by
        rw [hl] at h
        simp only [List.countP_append, List.countP_cons, hc, if_true] at h
        simp only [List.countP_append, List.countP_cons, as_id_char_allowed, Bool.not_true,
          Bool.false_eq_true, if_false]
        omega
      rw [ih _ (by rw [hnew]; exact hcount), hnew, hl]
      simp [as_id_char_idem]

theorem as_html_string_eq (s : String) : as_html_string s = escape_spec s := by
  apply String.ext
  exact as_html_string_loop_data _ _ (List.countP_le_length _)

theorem as_id_data (s : String) : (as_id s).data = s.data.map as_id_char := by
  exact as_id_loop_data _ _ (List.countP_le_length _)

theorem find_first_eq_none {p : Char → Bool} {l : List Char} (h : ∀ x ∈ l, p x = false) :
    find_first p l = none := by
  induction l with
  | nil => rfl
  | cons c cs ih =>
    rw [find_first, h c (List.mem_cons_self _ _),
      ih (fun x hx => h x (List.mem_cons_of_mem _ hx))]
    rfl

theorem escape_char_clean (c : Char) : ∀ x ∈ escape_char c, "<>".data.contains x = false := by
  by_cases h : "<>".data.contains c = true
  · rw [escape_char_of_special h]; exact replacement_clean c
  · have h2 : "<>".data.contains c = false := by simpa using h
    rw [escape_char_of_not_special h2]
    intro x hx
    rw [List.mem_singleton] at hx
    rw [hx]; exact h2

theorem escape_spec_clean (s : String) : ∀ x ∈ (escape_spec s).data, "<>".data.contains x = false := by
  intro x hx
  simp only [escape_spec, List.mem_flatMap] at hx
  obtain ⟨c, _, hxc⟩ := hx
  exact escape_char_clean c x hxc

/-- Enough fuel: with any bound of at least `s.length` iterations the loop of
`as_html(const std::string&)` stops by its own exit test (no `<` or `>` is
left) and returns the value of `as_html_string`. -/
theorem as_html_string_loop_fuel (s : String) (fuel : Nat) (h : s.length ≤ fuel) :
    as_html_string_loop fuel s = as_html_string s ∧
      find_first_of (as_html_string_loop fuel s) "<>" = none := by
  have h1 : as_html_string_loop fuel s = escape_spec s :=
    String.ext (as_html_string_loop_data _ _ (Nat.le_trans (List.countP_le_length _) h))
  refine ⟨by rw [h1, as_html_string_eq], ?_⟩
  rw [h1]
  exact find_first_eq_none (escape_spec_clean s)

/-- Enough fuel: with any bound of at least `name.length` iterations the loop
of `as_id` stops by its own exit test (no disallowed element is left) and
returns the value of `as_id`. -/
theorem as_id_loop_fuel (name : String) (fuel : Nat) (h : name.length ≤ fuel) :
    as_id_loop fuel name = as_id name ∧
      find_first_not_of (as_id_loop fuel name) id_chars = none := by
  have h1 : (as_id_loop fuel name).data = name.data.map as_id_char :=
    as_id_loop_data _ _ (Nat.le_trans (List.countP_le_length _) h)
  refine ⟨String.ext (by rw [h1, as_id_data]), ?_⟩
  apply find_first_eq_none
  intro x hx
  rw [h1, List.mem_map] at hx
  obtain ⟨c, _, rfl⟩ := hx
  rw [as_id_char_allowed]; rfl

theorem as_id_idem (s : String) : as_id (as_id s) = as_id s := by
  apply String.ext
  rw [as_id_data, as_id_data, List.map_map]
  apply List.map_congr_left
  intro c _
  exact as_id_char_idem c

/-! ## The allowed set of `as_id` is the class `[A-Za-z0-9_-]` -/

theorem id_chars_in_class : ∀ c ∈ id_chars.data, in_id_class c = true := by decide

theorem in_id_class_bound (c : Char) (h : in_id_class c = true) : c.toNat < 128 := by
  simp only [in_id_class, Bool.or_eq_true, Bool.and_eq_true, decide_eq_true_eq, beq_iff_eq] at h
  have hz : c ≤ 'z' → c.toNat ≤ 122 := fun h => h
  have hZ : c ≤ 'Z' → c.toNat ≤ 90 := fun h => h
  have h9 : c ≤ '9' → c.toNat ≤ 57 := fun h => h
  rcases h with (((h | h) | h) | h) | h
  · have := hZ h.2; omega
  · have := hz h.2; omega
  · have := h9 h.2; omega
  · rw [h]; decide
  · rw [h]; decide

theorem class_table : ∀ n : Fin 128, in_id_class (Char.ofNat n) = true →
    id_chars.data.contains (Char.ofNat n) = true := by
  decide

theorem in_id_class_iff (c : Char) : id_chars.data.contains c = in_id_class c := by
  by_cases h : in_id_class c = true
  · rw [h]
    have := class_table ⟨c.toNat, in_id_class_bound c h⟩
    simp only [Char.ofNat_toNat] at this
    exact this h
  · have h2 : in_id_class c = false := by simpa using h
    rw [h2]
    by_contra hc
    have hc2 : id_chars.data.contains c = true := by simpa using hc
    rw [List.contains, List.elem_iff] at hc2
    rw [id_chars_in_class c hc2] at h2
    exact absurd h2 (by decide)
theorem as_id_char_eq_sanitize (c : Char) : as_id_char c = sanitize_char c := by
  unfold as_id_char sanitize_char
  rw [in_id_class_iff]
  by_cases hp : c = '+'
  · subst hp
    have : in_id_class '+' = false := by decide
    simp [this]
  · simp [hp]

/-! ## Claims on plain-string escaping and anchor ids -/

/-- C1: for every string, `as_html` on a plain string is the string with each
`<` replaced by `&lt;`, each `>` replaced by `&gt;`, character by character,
every other character unchanged; every occurrence is replaced, as in
`as_html("a<b>c<d") = "a&lt;b&gt;c&lt;d"`. -/
theorem as_html_string_escapes :
    (∀ s : String, as_html_string s = escape_spec s) ∧
      escape_char '&' = ['&'] ∧ escape_char '\x22' = ['\x22'] ∧ escape_char '\x27' = ['\x27'] ∧
      as_html_string "a<b>c<d" = "a&lt;b&gt;c&lt;d" :=
  ⟨as_html_string_eq, by decide, by decide, by decide, by decide⟩

/-- C2: anchor-id sanitization is idempotent, `as_id(as_id(s)) = as_id(s)` for
every string `s`. -/
theorem as_id_idempotent : ∀ s : String, as_id (as_id s) = as_id s :=
  as_id_idem

/-- C8: for every string `s`, `as_id(s)` has the length of `s` and is `s` with
each `+` replaced by `p`, each other character outside `[A-Za-z0-9_-]` replaced
by `-` and each character of the class unchanged; so every character of the
result is in the class, and `as_id("C++ Basics") = "Cpp-Basics"`. -/
theorem as_id_sanitizes :
    (∀ s : String, (as_id s).length = s.length ∧ as_id s = ⟨s.data.map sanitize_char⟩ ∧
      ∀ c ∈ (as_id s).data, in_id_class c = true) ∧
      as_id "C++ Basics" = "Cpp-Basics" := by
  refine ⟨fun s => ?_, by decide⟩
  have hd : (as_id s).data = s.data.map sanitize_char := by
    rw [as_id_data]
    exact List.map_congr_left (fun c _ => as_id_char_eq_sanitize c)
  refine ⟨?_, String.ext hd, ?_⟩
  · show (as_id s).data.length = s.data.length
    rw [hd, List.length_map]
  · intro c hc
    rw [as_id_data, List.mem_map] at hc
    obtain ⟨x, _, rfl⟩ := hc
    rw [← in_id_class_iff]
    exact as_id_char_allowed x

/-! ## Accumulation loops are concatenations -/

theorem foldl_append_init {α : Type} (f : α → String) (acc : String) (l : List α) :
    l.foldl (fun a x => a ++ f x) acc = acc ++ l.foldl (fun a x => a ++ f x) "" := by
  induction l generalizing acc with
  | nil => simp
  | cons x xs ih =>
    rw [List.foldl_cons, List.foldl_cons, ih, ih ("" ++ f x), String.empty_append,
      String.append_assoc]

theorem join_nil : String.join [] = "" := rfl

theorem join_cons (x : String) (xs : List String) : String.join (x :: xs) = x ++ String.join xs := by
  have h := foldl_append_init (fun s : String => s) ("" ++ x) xs
  unfold String.join
  rw [List.foldl_cons, h, String.empty_append]

theorem join_append (xs ys : List String) :
    String.join (xs ++ ys) = String.join xs ++ String.join ys := by
  induction xs with
  | nil => rw [List.nil_append, join_nil, String.empty_append]
  | cons x xs ih => rw [List.cons_append, join_cons, join_cons, ih, String.append_assoc]

theorem foldl_append_eq_join {α : Type} (f : α → String) (acc : String) (l : List α) :
    l.foldl (fun a x => a ++ f x) acc = acc ++ String.join (l.map f) := by
  induction l generalizing acc with
  | nil => simp [join_nil]
  | cons x xs ih => rw [List.foldl_cons, ih, List.map_cons, join_cons, String.append_assoc]

theorem as_html_Text_loop_eq (accum : String) (seq : List Span) :
    as_html_Text_loop accum seq = accum ++ String.join (seq.map as_html_Span) := by
  induction seq generalizing accum with
  | nil => rw [as_html_Text_loop, List.map_nil, join_nil, String.append_empty]
  | cons e es ih => rw [as_html_Text_loop, ih, List.map_cons, join_cons, String.append_assoc]

theorem as_html_Text_eq_join (seq : List Span) :
    as_html_Text (.mk seq) = String.join (seq.map as_html_Span) := by
  rw [as_html_Text, as_html_Text_loop_eq, String.empty_append]

theorem join_data (l : List String) : (String.join l).data = l.flatMap String.data := by
  induction l with
  | nil => rfl
  | cons x xs ih => rw [join_cons, String.data_append, ih, List.flatMap_cons]


/-! ## Table rendering -/

theorem has_header_step_eq (b : Bool) (v : Text) :
    has_header_step b v = (b && is_dash_cell v) := by
  cases v with
  | mk seq =>
    unfold has_header_step is_dash_cell
    simp only [Text.seq]
    match seq with
    | [] => simp
    | [.string s] => by_cases hs : s = "-" <;> simp [hs]
    | [.Insertion _] => simp
    | [.Deletion _] => simp
    | [.Reference _ _] => simp
    | [.Identifier _] => simp
    | [.CodeSpan _] => simp
    | _ :: _ :: _ => simp

theorem foldl_has_header_step (b : Bool) (row : List Text) :
    row.foldl has_header_step b = (b && row.all is_dash_cell) := by
  induction row generalizing b with
  | nil => simp
  | cons v vs ih => rw [List.foldl_cons, ih, has_header_step_eq, List.all_cons, Bool.and_assoc]

theorem has_header_eq (l : Table) :
    has_header l = (decide (3 ≤ l.entries.length) && (l.entries.getD 1 []).all is_dash_cell) := by
  unfold has_header
  by_cases h : l.entries.length < 3
  · have : ¬ 3 ≤ l.entries.length := by omega
    simp [h, this]
  · have : 3 ≤ l.entries.length := by omega
    simp [h, this, foldl_has_header_step]

theorem as_html_Table_row_eq (accum : String) (row : List Text) :
    as_html_Table_row accum row = accum ++ body_row row := by
  unfold as_html_Table_row body_row
  rw [foldl_append_eq_join]
  simp only [String.append_assoc]

theorem foldl_as_html_Table_row (accum : String) (rows : List (List Text)) :
    rows.foldl as_html_Table_row accum = accum ++ String.join (rows.map body_row) := by
  have : as_html_Table_row = fun a r => a ++ body_row r := by
    funext a r; exact as_html_Table_row_eq a r
  rw [this, foldl_append_eq_join]

theorem as_html_Table_of_header (l : Table) (h : has_header l = true) :
    as_html_Table l = "<table><thead><tr>" ++ header_cells (l.entries.getD 0 [])
      ++ "</tr></thead><tbody>" ++ String.join ((l.entries.drop 2).map body_row)
      ++ "</tbody></table>" := by
  unfold as_html_Table header_cells
  simp only [h, if_true, foldl_as_html_Table_row, foldl_append_eq_join, String.append_assoc]
  rfl

theorem as_html_Table_of_no_header (l : Table) (h : has_header l = false) :
    as_html_Table l = "<table><tbody>" ++ String.join (l.entries.map body_row)
      ++ "</tbody></table>" := by
  unfold as_html_Table
  simp only [h, Bool.false_eq_true, if_false, foldl_as_html_Table_row, List.drop_zero,
    String.append_assoc]
  rfl


/-! ## Claims on tables and Text -/

/-- C3: a Table with at least 3 rows in which every cell of row 1 is a Text of
exactly one span, the plain string `-`, renders as `<table><thead><tr>`, the
cells of row 0 each wrapped in `<th>`, `</tr></thead><tbody>`, the rows from
index 2 on each as a `<tr>` of `<td>` cells, `</tbody></table>`; row 1 is not
rendered. -/
theorem as_html_Table_with_header (l : Table) (h3 : 3 ≤ l.entries.length)
    (hsep : ∀ v ∈ l.entries.getD 1 [], is_dash_cell v = true) :
    as_html_Table l = "<table><thead><tr>"
      ++ String.join ((l.entries.getD 0 []).map (fun c => "<th>" ++ as_html_Text c ++ "</th>"))
      ++ "</tr></thead><tbody>"
      ++ String.join ((l.entries.drop 2).map (fun row =>
          "<tr>" ++ String.join (row.map (fun c => "<td>" ++ as_html_Text c ++ "</td>")) ++ "</tr>"))
      ++ "</tbody></table>" := by
  have hh : has_header l = true := by
    rw [has_header_eq, decide_eq_true h3, Bool.true_and, List.all_eq_true]
    exact hsep
  exact as_html_Table_of_header l hh

/-- C3 at the table with rows `[["A","B"],["-","-"],["1","2"]]`: row 0 is inside
`<thead>` and only row 2 is inside `<tbody>`. -/
theorem as_html_Table_with_header_witness :
    3 ≤ (Table.mk [[.mk [.string "A"], .mk [.string "B"]], [.mk [.string "-"], .mk [.string "-"]],
        [.mk [.string "1"], .mk [.string "2"]]]).entries.length ∧
      (∀ v ∈ (Table.mk [[.mk [.string "A"], .mk [.string "B"]],
        [.mk [.string "-"], .mk [.string "-"]],
        [.mk [.string "1"], .mk [.string "2"]]]).entries.getD 1 [], is_dash_cell v = true) ∧
      as_html_Table ⟨[[.mk [.string "A"], .mk [.string "B"]], [.mk [.string "-"], .mk [.string "-"]],
        [.mk [.string "1"], .mk [.string "2"]]]⟩
        = "<table><thead><tr><th>A</th><th>B</th></tr></thead><tbody><tr><td>1</td><td>2</td></tr></tbody></table>" :=
  ⟨by decide, by decide,
    (as_html_Table_with_header ⟨[[.mk [.string "A"], .mk [.string "B"]],
      [.mk [.string "-"], .mk [.string "-"]], [.mk [.string "1"], .mk [.string "2"]]]⟩
      (by decide) (by decide)).trans (by decide)⟩

/-- C4: a Table with fewer than 3 rows, or whose row 1 has a cell that is not
exactly one plain-string span equal to `-`, renders as `<table><tbody>`, every
row from index 0 on as a `<tr>` of `<td>` cells, `</tbody></table>`: no
`<thead>` section, and row 1 is an ordinary data row. -/
theorem as_html_Table_without_header (l : Table)
    (h : l.entries.length < 3 ∨ ∃ v ∈ l.entries.getD 1 [], is_dash_cell v = false) :
    as_html_Table l = "<table><tbody>"
      ++ String.join (l.entries.map (fun row =>
          "<tr>" ++ String.join (row.map (fun c => "<td>" ++ as_html_Text c ++ "</td>")) ++ "</tr>"))
      ++ "</tbody></table>" := by
  have hh : has_header l = false := by
    rw [has_header_eq]
    rcases h with h | ⟨v, hv, hd⟩
    · have : ¬ 3 ≤ l.entries.length := by omega
      rw [decide_eq_false this, Bool.false_and]
    · have : (l.entries.getD 1 []).all is_dash_cell = false := by
        rw [List.all_eq_false]
        exact ⟨v, hv, by rw [hd]; decide⟩
      rw [this, Bool.and_false]
  exact as_html_Table_of_no_header l hh

/-- C4 at a table of 2 rows whose row 1 is all dashes, and at a table of 3
rows whose row 1 is not all dashes: all rows are in `<tbody>`. -/
theorem as_html_Table_without_header_witness :
    (as_html_Table ⟨[[.mk [.string "A"]], [.mk [.string "-"]]]⟩
        = "<table><tbody><tr><td>A</td></tr><tr><td>-</td></tr></tbody></table>") ∧
      (as_html_Table ⟨[[.mk [.string "A"], .mk [.string "B"]],
        [.mk [.string "-"], .mk [.string "--"]], [.mk [.string "1"], .mk [.string "2"]]]⟩
        = "<table><tbody><tr><td>A</td><td>B</td></tr><tr><td>-</td><td>--</td></tr><tr><td>1</td><td>2</td></tr></tbody></table>") :=
  ⟨(as_html_Table_without_header ⟨[[.mk [.string "A"]], [.mk [.string "-"]]]⟩
      (Or.inl (by decide))).trans (by decide),
    (as_html_Table_without_header ⟨[[.mk [.string "A"], .mk [.string "B"]],
        [.mk [.string "-"], .mk [.string "--"]], [.mk [.string "1"], .mk [.string "2"]]]⟩
      (Or.inr ⟨.mk [.string "--"], by simp, by decide⟩)).trans (by decide)⟩

theorem as_html_Span_string_clean (sp : Span) (h : holds_string sp = true) :
    ∀ x ∈ (as_html_Span sp).data, "<>".data.contains x = false := by
  cases sp with
  | string s =>
    rw [as_html_Span, as_html_string_eq]
    exact escape_spec_clean s
  | _ => simp [holds_string] at h

/-- C9: for every Text all of whose spans are plain strings, the rendering
contains no `<` and no `>`. -/
theorem as_html_Text_plain_no_angle (t : Text) (h : ∀ sp ∈ t.seq, holds_string sp = true) :
    '<' ∉ (as_html_Text t).data ∧ '>' ∉ (as_html_Text t).data := by
  cases t with
  | mk seq =>
    have hall : ∀ x ∈ (as_html_Text (.mk seq)).data, "<>".data.contains x = false := by
      intro x hx
      rw [as_html_Text_eq_join, join_data, List.mem_flatMap] at hx
      obtain ⟨r, hr, hxr⟩ := hx
      rw [List.mem_map] at hr
      obtain ⟨sp, hsp, rfl⟩ := hr
      exact as_html_Span_string_clean sp (h sp hsp) x hxr
    constructor
    · intro hm
      exact absurd (hall _ hm) (by decide)
    · intro hm
      exact absurd (hall _ hm) (by decide)

/-- C9 at the Text with the plain spans `a<b>` and `<>x`. -/
theorem as_html_Text_plain_no_angle_witness :
    (∀ sp ∈ (Text.mk [.string "a<b>", .string "<>x"]).seq, holds_string sp = true) ∧
      '<' ∉ (as_html_Text (.mk [.string "a<b>", .string "<>x"])).data ∧
      '>' ∉ (as_html_Text (.mk [.string "a<b>", .string "<>x"])).data :=
  ⟨by decide, as_html_Text_plain_no_angle (.mk [.string "a<b>", .string "<>x"]) (by decide)⟩

/-- C10: the rendering of a Text is the concatenation, in order and without
separators, of the renderings of its spans: the empty Text renders as the
empty string, and the rendering of `a ++ b` is the rendering of `a` followed
by the rendering of `b`. -/
theorem as_html_Text_concat :
    as_html_Text (.mk []) = "" ∧
      (∀ seq : List Span, as_html_Text (.mk seq) = String.join (seq.map as_html_Span)) ∧
      (∀ e : Span, as_html_Text (.mk [e]) = as_html_Span e) ∧
      ∀ a b : List Span,
        as_html_Text (.mk (a ++ b)) = as_html_Text (.mk a) ++ as_html_Text (.mk b) := by
  refine ⟨by decide, as_html_Text_eq_join, fun e => ?_, fun a b => ?_⟩
  · rw [as_html_Text_eq_join, List.map_cons, List.map_nil, join_cons, join_nil,
      String.append_empty]
  · rw [as_html_Text_eq_join, as_html_Text_eq_join, as_html_Text_eq_join, List.map_append,
      join_append]

/-! ## Chapter and Document traversal -/

theorem entries_loop_eq (render : Entry → Option String) (accum : String) (es : List Entry) :
    entries_loop render accum es =
      match concat_results (es.map render) with
      | some items => some (accum ++ items)
      | none => none := by
  induction es generalizing accum with
  | nil => simp [entries_loop, concat_results]
  | cons el els ih =>
    rw [entries_loop, List.map_cons]
    cases hr : render el with
    | none => simp [concat_results]
    | some r =>
      simp only [concat_results]
      rw [ih]
      cases concat_results (els.map render) with
      | none => rfl
      | some t => simp [String.append_assoc]

theorem as_html_subchapters_eq (doc : Option Document) (name : String) (accum : String) (n : Nat)
    (subs : List Chapter) :
    as_html_subchapters doc name accum n subs =
      match concat_results ((subs.enumFrom n).map
        (fun p => as_html_Chapter doc (name ++ "." ++ to_string_size (p.1 + 1)) p.2)) with
      | some r => some (accum ++ r)
      | none => none := by
  induction subs generalizing accum n with
  | nil => simp [as_html_subchapters, concat_results]
  | cons sub subs ih =>
    rw [as_html_subchapters, List.enumFrom_cons, List.map_cons]
    cases hr : as_html_Chapter doc (name ++ "." ++ to_string_size (n + 1)) sub with
    | none => simp [concat_results]
    | some r =>
      simp only [concat_results]
      rw [ih]
      cases concat_results ((subs.enumFrom (n + 1)).map
        (fun p => as_html_Chapter doc (name ++ "." ++ to_string_size (p.1 + 1)) p.2)) with
      | none => rfl
      | some t => simp [String.append_assoc]

theorem as_html_Chapter_eq (doc : Option Document) (name : String) (ch : Chapter) :
    as_html_Chapter doc name ch =
      match concat_results (ch.entries.map (as_html_Chapter_Entry doc)),
        concat_results (ch.subchapters.enum.map
          (fun p => as_html_Chapter doc (name ++ "." ++ to_string_size (p.1 + 1)) p.2)) with
      | some items, some subs => some (heading name ch ++ items ++ subs)
      | _, _ => none := by
  cases ch with
  | mk level text entries subchapters =>
    rw [as_html_Chapter, entries_loop_eq]
    simp only [Chapter.entries, Chapter.subchapters, List.enum]
    cases concat_results (entries.map (as_html_Chapter_Entry doc)) with
    | none => rfl
    | some items =>
      simp only
      rw [as_html_subchapters_eq]
      cases concat_results ((subchapters.enumFrom 0).map
        (fun p => as_html_Chapter doc (name ++ "." ++ to_string_size (p.1 + 1)) p.2)) with
      | none => rfl
      | some subs => simp [String.empty_append]

/-- C5: `as_html(name, ch)` is the heading for `(name, ch)`, followed by the
rendering of each content item of `ch` in order (a bare Text as
`<p>` ++ `as_html(Text)` ++ `</p>`, any other item by its own block rule),
followed by `as_html(name ++ "." ++ decimal(i+1), ch.subchapters[i])` for each
position `i` in order; the whole has a defined result exactly when all parts have. -/
theorem as_html_Chapter_structure :
    (∀ (doc : Option Document) (name : String) (ch : Chapter),
      as_html_Chapter doc name ch =
        match concat_results (ch.entries.map (as_html_Chapter_Entry doc)),
          concat_results (ch.subchapters.enum.map
            (fun p => as_html_Chapter doc (name ++ "." ++ to_string_size (p.1 + 1)) p.2)) with
        | some items, some subs => some (heading name ch ++ items ++ subs)
        | _, _ => none) ∧
      (∀ (doc : Option Document) (t : Text),
        as_html_Chapter_Entry doc (.Text t) = some ("<p>" ++ as_html_Text t ++ "</p>")) ∧
      (∀ (doc : Option Document) (body : String),
        as_html_Chapter_Entry doc (.Code body) = some (as_html_Code body)) ∧
      (∀ (doc : Option Document) (entries : List Text),
        as_html_Chapter_Entry doc (.List entries) = some (as_html_List entries)) ∧
      (∀ (doc : Option Document) (entries : List Text),
        as_html_Chapter_Entry doc (.OrderedList entries) = some (as_html_OrderedList entries)) ∧
      (∀ (doc : Option Document) (t : Table),
        as_html_Chapter_Entry doc (.Table t) = some (as_html_Table t)) ∧
      (∀ doc : Option Document, as_html_Chapter_Entry doc .References = as_html_References doc) ∧
      (∀ doc : Option Document, as_html_Chapter_Entry doc .TOC = some as_html_TOC) ∧
      (∀ doc : Option Document,
        as_html_Chapter_Entry doc .IdentifierDefinition = some as_html_IdentifierDefinition) ∧
      (∀ n : Nat, to_string_size n = Nat.repr n) :=
  ⟨as_html_Chapter_eq, fun _ _ => rfl, fun _ _ => rfl, fun _ _ => rfl, fun _ _ => rfl,
    fun _ _ => rfl, fun _ => rfl, fun _ => rfl, fun _ => rfl, fun _ => rfl⟩


theorem as_html_Entry_bound (d : Document) (e : Entry) :
    as_html_Entry (some d) e = some (entry_html d e) := by
  cases e <;> rfl

theorem as_html_Chapter_Entry_bound (d : Document) (e : Entry) :
    as_html_Chapter_Entry (some d) e = some (chapter_entry_html d e) := by
  cases e <;> rfl

theorem concat_results_some (l : List String) :
    concat_results (l.map some) = some (String.join l) := by
  induction l with
  | nil => rfl
  | cons x xs ih => rw [List.map_cons, concat_results, ih, join_cons]

theorem entries_loop_bound (render : Entry → Option String) (f : Entry → String)
    (h : ∀ e, render e = some (f e)) (accum : String) (es : List Entry) :
    entries_loop render accum es = some (accum ++ String.join (es.map f)) := by
  have : es.map render = (es.map f).map some := by
    rw [List.map_map]; exact List.map_congr_left (fun e _ => h e)
  rw [entries_loop_eq, this, concat_results_some]

mutual
theorem as_html_Chapter_bound (d : Document) (name : String) :
    ∀ ch : Chapter, as_html_Chapter (some d) name ch = some (chapter_html d name ch)
  | .mk level text entries subchapters => by
    rw [as_html_Chapter, entries_loop_bound _ _ (as_html_Chapter_Entry_bound d)]
    simp only
    rw [as_html_subchapters_bound d name _ 0 subchapters, chapter_html, String.empty_append]
theorem as_html_subchapters_bound (d : Document) (name : String) (accum : String) (n : Nat) :
    ∀ subs : List Chapter,
      as_html_subchapters (some d) name accum n subs = some (accum ++ subchapters_html d name n subs)
  | [] => by rw [as_html_subchapters, subchapters_html, String.append_empty]
  | sub :: subs => by
    rw [as_html_subchapters, as_html_Chapter_bound d _ sub]
    simp only
    rw [as_html_subchapters_bound d name _ (n + 1) subs, subchapters_html, String.append_assoc]
end


theorem as_html_Document_chapters_bound (d : Document) (accumulator : String) (n : Nat)
    (subs : List Chapter) :
    as_html_Document_chapters (some d) accumulator n subs =
      some (accumulator ++ String.join ((subs.enumFrom n).map
        (fun p => chapter_html d (to_string_size p.1) p.2))) := by
  induction subs generalizing accumulator n with
  | nil => rw [as_html_Document_chapters, List.enumFrom_nil, List.map_nil, join_nil,
      String.append_empty]
  | cons subch rest ih =>
    rw [as_html_Document_chapters, as_html_Chapter_bound]
    simp only
    rw [ih, List.enumFrom_cons, List.map_cons, join_cons, String.append_assoc]

theorem as_html_Document_eq (ch : Document) (g : Option Document) :
    as_html_Document ch g = some (html_header1 ++ ch.text ++ html_header2
      ++ "<h1 class=\"title\" style=\"text-align:center\">" ++ ch.text ++ "</h1>"
      ++ String.join (ch.entries.map (entry_html ch))
      ++ String.join ((ch.subchapters.enumFrom 1).map
        (fun p => chapter_html ch (to_string_size p.1) p.2))
      ++ html_footer, none) := by
  unfold as_html_Document
  simp only [entries_loop_bound _ _ (as_html_Entry_bound ch), as_html_Document_chapters_bound,
    String.append_assoc]

/-- C6: `as_html(Document)` renders the top-level chapters in order, the k-th
(counting from 1) with the number `decimal(k)` and no parent prefix; for a
Document with exactly 2 top-level chapters, the first without sub-chapters
and the second with exactly 2 sub-chapters that have none themselves, the
chapters are rendered with the numbers `1`, `2`, `2.1`, `2.2`, in that order. -/
theorem as_html_Document_numbering :
    (∀ (d : Document) (name : String) (ch : Chapter),
      as_html_Chapter (some d) name ch = some (chapter_html d name ch)) ∧
    (∀ (ch : Document) (g : Option Document),
      as_html_Document ch g = some (html_header1 ++ ch.text ++ html_header2
        ++ "<h1 class=\"title\" style=\"text-align:center\">" ++ ch.text ++ "</h1>"
        ++ String.join (ch.entries.map (entry_html ch))
        ++ String.join ((ch.subchapters.enumFrom 1).map
          (fun p => chapter_html ch (to_string_size p.1) p.2))
        ++ html_footer, none)) ∧
    (∀ (g : Option Document) (title : String) (es : List Entry) (refs : List ReferenceEntry)
      (l1 l2 l3 l4 : Int) (t1 t2 t3 t4 : String) (e1 e2 e3 e4 : List Entry),
      as_html_Document
        ⟨title, es, [.mk l1 t1 e1 [], .mk l2 t2 e2 [.mk l3 t3 e3 [], .mk l4 t4 e4 []]], refs⟩ g
      = some (html_header1 ++ title ++ html_header2
        ++ "<h1 class=\"title\" style=\"text-align:center\">" ++ title ++ "</h1>"
        ++ String.join (es.map (entry_html
          ⟨title, es, [.mk l1 t1 e1 [], .mk l2 t2 e2 [.mk l3 t3 e3 [], .mk l4 t4 e4 []]], refs⟩))
        ++ (heading "1" (.mk l1 t1 e1 [])
          ++ String.join (e1.map (chapter_entry_html
            ⟨title, es, [.mk l1 t1 e1 [], .mk l2 t2 e2 [.mk l3 t3 e3 [], .mk l4 t4 e4 []]], refs⟩)))
        ++ (heading "2" (.mk l2 t2 e2 [.mk l3 t3 e3 [], .mk l4 t4 e4 []])
          ++ String.join (e2.map (chapter_entry_html
            ⟨title, es, [.mk l1 t1 e1 [], .mk l2 t2 e2 [.mk l3 t3 e3 [], .mk l4 t4 e4 []]], refs⟩)))
        ++ (heading "2.1" (.mk l3 t3 e3 [])
          ++ String.join (e3.map (chapter_entry_html
            ⟨title, es, [.mk l1 t1 e1 [], .mk l2 t2 e2 [.mk l3 t3 e3 [], .mk l4 t4 e4 []]], refs⟩)))
        ++ (heading "2.2" (.mk l4 t4 e4 [])
          ++ String.join (e4.map (chapter_entry_html
            ⟨title, es, [.mk l1 t1 e1 [], .mk l2 t2 e2 [.mk l3 t3 e3 [], .mk l4 t4 e4 []]], refs⟩)))
        ++ html_footer, none)) := by
  refine ⟨as_html_Chapter_bound, as_html_Document_eq, ?_⟩
  intro g title es refs l1 l2 l3 l4 t1 t2 t3 t4 e1 e2 e3 e4
  have n1 : to_string_size 1 = "1" := by decide
  have n2 : to_string_size 2 = "2" := by decide
  have n01 : to_string_size (0 + 1) = "1" := by decide
  have n02 : to_string_size (0 + 1 + 1) = "2" := by decide
  have n21 : "2" ++ ("." ++ "1") = "2.1" := by decide
  have n22 : "2" ++ ("." ++ "2") = "2.2" := by decide
  rw [as_html_Document_eq]
  simp only [List.enumFrom_cons, List.enumFrom_nil, List.map_cons, List.map_nil, join_cons,
    join_nil, chapter_html, subchapters_html, n1, n2, n01, n02, n21, n22, String.append_empty,
    String.append_assoc]


/-- C7: at the Document with title `T` whose only content item is the bare
Text `a`, the dispatch of `as_html(const Document&)` renders the item as `a`,
not wrapped in a paragraph, while the dispatch of
`as_html(std::string, const Chapter&)` renders the same item as `<p>a</p>`. -/
theorem as_html_Document_bare_Text_unwrapped :
    entries_loop (as_html_Entry (some ⟨"T", [.Text (.mk [.string "a"])], [], []⟩)) ""
        [.Text (.mk [.string "a"])] = some "a" ∧
      entries_loop (as_html_Chapter_Entry (some ⟨"T", [.Text (.mk [.string "a"])], [], []⟩)) ""
        [.Text (.mk [.string "a"])] = some "<p>a</p>" ∧
      as_html_Document ⟨"T", [.Text (.mk [.string "a"])], [], []⟩ none
        = some (html_header1 ++ "T" ++ html_header2
          ++ "<h1 class=\"title\" style=\"text-align:center\">T</h1>" ++ "a" ++ html_footer, none) ∧
      as_html_Chapter (some ⟨"T", [.Text (.mk [.string "a"])], [], []⟩) "1"
        (.mk 1 "T" [.Text (.mk [.string "a"])] [])
        = some ("<h1 data-number=\"1\" id=\"T\"><span class=\"header-section-number\">1</span> T"
          ++ "<a href=\"#T\" class=\"self-link\"></a></h1>" ++ "<p>a</p>") := by
  exact ⟨by decide, by decide, rfl, by decide⟩


/-! ## Claims on spans, headings and the document frame -/

/-- C11: a Reference span with index `n` and URL text `u` renders exactly as
`<a href="u">[n]</a>`, one hyperlink targeting `u` and labelled `[n]` in
decimal; index 3 and URL `http://x` give `<a href="http://x">[3]</a>`. -/
theorem as_html_Reference_link :
    (∀ (n : Int) (u : String),
      as_html_Span (.Reference n u) = "<a href=\"" ++ u ++ "\">[" ++ to_string_int n ++ "]</a>") ∧
      (∀ k : Nat, to_string_int (Int.ofNat k) = Nat.repr k) ∧
      (∀ k : Nat, to_string_int (Int.negSucc k) = "-" ++ Nat.repr (k + 1)) ∧
      as_html_Span (.Reference 3 "http://x") = "<a href=\"http://x\">[3]</a>" ∧
      as_html_Text (.mk [.Reference 3 "http://x"]) = "<a href=\"http://x\">[3]</a>" :=
  ⟨fun _ _ => by rw [as_html_Span], fun _ => rfl, fun _ => rfl, by decide, by decide⟩

theorem escape_spec_idem (s : String) : escape_spec (escape_spec s) = escape_spec s := by
  apply String.ext
  show (escape_spec s).data.flatMap escape_char = (escape_spec s).data
  exact flatMap_escape_of_no_special (escape_spec_clean s)

/-- C19: plain-string escaping is idempotent, `as_html(as_html(s)) = as_html(s)`
for every string `s`; already escaped text is not escaped again, as in
`as_html("&lt;") = "&lt;" = as_html("<")`. -/
theorem as_html_string_idempotent :
    (∀ s : String, as_html_string (as_html_string s) = as_html_string s) ∧
      (∀ s : String, '<' ∉ (as_html_string s).data ∧ '>' ∉ (as_html_string s).data) ∧
      as_html_string "&lt;" = "&lt;" ∧ as_html_string "<" = "&lt;" := by
  refine ⟨fun s => ?_, fun s => ?_, by decide, by decide⟩
  · rw [as_html_string_eq, as_html_string_eq, escape_spec_idem]
  · rw [as_html_string_eq]
    exact ⟨fun hm => absurd (escape_spec_clean s _ hm) (by decide),
      fun hm => absurd (escape_spec_clean s _ hm) (by decide)⟩

/-- C18: every marker span renders as `<span class="C">` ++ body ++ `</span>`:
an Insertion with class `new` and a Deletion with class `delete` around the
rendered inner Text, an Identifier with class `identifier` and a CodeSpan with
class `code` around the raw text; so a nested plain string is escaped while
`<` and `>` in an Identifier or CodeSpan stay verbatim. -/
theorem as_html_marker_spans :
    (∀ t : Text, as_html_Span (.Insertion t)
      = "<span class=\"new\">" ++ as_html_Text t ++ "</span>") ∧
    (∀ t : Text, as_html_Span (.Deletion t)
      = "<span class=\"delete\">" ++ as_html_Text t ++ "</span>") ∧
    (∀ s : String, as_html_Span (.Identifier s)
      = "<span class=\"identifier\">" ++ s ++ "</span>") ∧
    (∀ s : String, as_html_Span (.CodeSpan s) = "<span class=\"code\">" ++ s ++ "</span>") ∧
    as_html_Span (.Insertion (.mk [.string "a<b>"])) = "<span class=\"new\">a&lt;b&gt;</span>" ∧
    as_html_Span (.Deletion (.mk [.string "a<b>"])) = "<span class=\"delete\">a&lt;b&gt;</span>" ∧
    as_html_Span (.Identifier "a<b>") = "<span class=\"identifier\">a<b></span>" ∧
    as_html_Span (.CodeSpan "a<b>") = "<span class=\"code\">a<b></span>" :=
  ⟨fun _ => by rw [as_html_Span], fun _ => by rw [as_html_Span], fun _ => by rw [as_html_Span],
    fun _ => by rw [as_html_Span], by decide, by decide, by decide, by decide⟩

/-- C20: `as_id` is not injective: the distinct titles `a b` and `a-b`, and
`C++` and `Cpp`, have the same sanitized id, so two chapters with different
titles are rendered with the same `id` attribute and self-link target. -/
theorem as_id_not_injective :
    ("a b" ≠ "a-b" ∧ as_id "a b" = as_id "a-b") ∧
      ("C++" ≠ "Cpp" ∧ as_id "C++" = as_id "Cpp") ∧
      ¬ Function.Injective as_id ∧
      heading "1" (.mk 1 "a b" [] [])
        = "<h1 data-number=\"1\" id=\"a-b\"><span class=\"header-section-number\">1</span> a b"
          ++ "<a href=\"#a-b\" class=\"self-link\"></a></h1>" ∧
      heading "2" (.mk 1 "a-b" [] [])
        = "<h1 data-number=\"2\" id=\"a-b\"><span class=\"header-section-number\">2</span> a-b"
          ++ "<a href=\"#a-b\" class=\"self-link\"></a></h1>" ∧
      as_html_Document ⟨"T", [], [.mk 1 "a b" [] [], .mk 1 "a-b" [] []], []⟩ none
        = some (html_header1 ++ "T" ++ html_header2
          ++ "<h1 class=\"title\" style=\"text-align:center\">" ++ "T" ++ "</h1>"
          ++ heading "1" (.mk 1 "a b" [] []) ++ heading "2" (.mk 1 "a-b" [] [])
          ++ html_footer, none) := by
  refine ⟨⟨by decide, by decide⟩, ⟨by decide, by decide⟩, ?_, by decide, by decide, ?_⟩
  · intro hinj
    exact absurd (hinj (show as_id "a b" = as_id "a-b" by decide)) (by decide)
  · have n1 : to_string_size 1 = "1" := by decide
    have n2 : to_string_size (1 + 1) = "2" := by decide
    rw [as_html_Document_eq]
    simp only [List.enumFrom_cons, List.enumFrom_nil, List.map_cons, List.map_nil, join_cons,
      join_nil, chapter_html, subchapters_html, n1, n2, String.append_empty,
      String.append_assoc, String.empty_append]


theorem references_list_eq (d : Document) :
    references_list d = "<ol>" ++ String.join (d.references.map (fun r =>
      "<li><a href=\"" ++ r.text ++ "\">" ++ r.name ++ " (" ++ r.text ++ ")</a></li>"))
      ++ "</ol>" := by
  rw [references_list, foldl_append_eq_join]

/-- C16: for a Chapter with level `L` and title `T` and every number `N`, the
rendering begins with exactly the heading `<hL data-number="N" id="as_id(T)">`,
the number in a `header-section-number` span, a blank, the title, the
self-link to `#as_id(T)`, and `</hL>`. -/
theorem as_html_Chapter_heading :
    (∀ (d : Document) (name : String) (level : Int) (text : String) (entries : List Entry)
      (subchapters : List Chapter),
      ∃ rest, as_html_Chapter (some d) name (.mk level text entries subchapters)
        = some ("<h" ++ to_string_int level ++ " data-number=\"" ++ name ++ "\" id=\""
          ++ as_id text ++ "\"><span class=\"header-section-number\">" ++ name ++ "</span> "
          ++ text ++ "<a href=\"#" ++ as_id text ++ "\" class=\"self-link\"></a></h"
          ++ to_string_int level ++ ">" ++ rest)) ∧
    (∀ (name : String) (level : Int) (text : String) (entries : List Entry)
      (subchapters : List Chapter),
      as_html_Chapter none name (.mk level text entries subchapters) = none ∨
      ∃ rest, as_html_Chapter none name (.mk level text entries subchapters)
        = some ("<h" ++ to_string_int level ++ " data-number=\"" ++ name ++ "\" id=\""
          ++ as_id text ++ "\"><span class=\"header-section-number\">" ++ name ++ "</span> "
          ++ text ++ "<a href=\"#" ++ as_id text ++ "\" class=\"self-link\"></a></h"
          ++ to_string_int level ++ ">" ++ rest)) ∧
    (∀ k : Nat, to_string_int (Int.ofNat k) = Nat.repr k) ∧
    as_html_Chapter none "2.3.1" (.mk 3 "C++ Basics" [] [])
      = some ("<h3 data-number=\"2.3.1\" id=\"Cpp-Basics\">"
        ++ "<span class=\"header-section-number\">2.3.1</span> C++ Basics"
        ++ "<a href=\"#Cpp-Basics\" class=\"self-link\"></a></h3>") := by
  refine ⟨?_, ?_, fun _ => rfl, by decide⟩
  · intro d name level text entries subchapters
    rw [as_html_Chapter_bound, chapter_html]
    refine ⟨String.join (entries.map (chapter_entry_html d))
      ++ subchapters_html d name 0 subchapters, ?_⟩
    simp only [heading, Chapter.level, Chapter.text, String.append_assoc]
  · intro name level text entries subchapters
    rw [as_html_Chapter_eq]
    cases concat_results ((Chapter.mk level text entries subchapters).entries.map
      (as_html_Chapter_Entry none)) with
    | none => exact Or.inl rfl
    | some items =>
      cases concat_results ((Chapter.mk level text entries subchapters).subchapters.enum.map
        (fun p => as_html_Chapter none (name ++ "." ++ to_string_size (p.1 + 1)) p.2)) with
      | none => exact Or.inl rfl
      | some subs =>
        refine Or.inr ⟨items ++ subs, ?_⟩
        simp only [heading, Chapter.level, Chapter.text, String.append_assoc]


set_option maxRecDepth 100000 in
theorem html_header_shape :
    "<!DOCTYPE html>\n".data <+: html_header1.data ∧
      "<title>\n".data <:+ html_header1.data ∧
      "</title>\n".data <+: html_header2.data ∧
      "<body>\n".data <:+ html_header2.data := by
  decide

/-- C17: for every Document with title `T` the output is `html_header1`, `T`,
`html_header2`, the page heading holding `T`, the rendered top-level content
items in order, the rendered top-level chapters in order, and `html_footer`;
it starts with `<!DOCTYPE html>`, has the title inside `<title>` and in the
page heading, and ends with `</body></html>`. -/
theorem as_html_Document_frame :
    (∀ (ch : Document) (g : Option Document),
      as_html_Document ch g = some (html_header1 ++ ch.text ++ html_header2
        ++ "<h1 class=\"title\" style=\"text-align:center\">" ++ ch.text ++ "</h1>"
        ++ String.join (ch.entries.map (entry_html ch))
        ++ String.join ((ch.subchapters.enumFrom 1).map
          (fun p => chapter_html ch (to_string_size p.1) p.2))
        ++ html_footer, none)) ∧
    (∀ (d : Document) (e : Entry), as_html_Entry (some d) e = some (entry_html d e)) ∧
    (∀ (d : Document) (name : String) (c : Chapter),
      as_html_Chapter (some d) name c = some (chapter_html d name c)) ∧
    "<!DOCTYPE html>\n".data <+: html_header1.data ∧
    "<title>\n".data <:+ html_header1.data ∧
    "</title>\n".data <+: html_header2.data ∧
    "<body>\n".data <:+ html_header2.data ∧
    html_footer = "</body></html>\n" :=
  ⟨as_html_Document_eq, as_html_Entry_bound, as_html_Chapter_bound, html_header_shape.1,
    html_header_shape.2.1, html_header_shape.2.2.1, html_header_shape.2.2.2, rfl⟩

theorem subchapters_html_eq (d : Document) (name : String) (n : Nat) (subs : List Chapter) :
    subchapters_html d name n subs = String.join ((subs.enumFrom n).map
      (fun p => chapter_html d (name ++ "." ++ to_string_size (p.1 + 1)) p.2)) := by
  induction subs generalizing n with
  | nil => rw [subchapters_html, List.enumFrom_nil, List.map_nil, join_nil]
  | cons sub subs ih => rw [subchapters_html, ih, List.enumFrom_cons, List.map_cons, join_cons]

/-! ## The pointer `doc` -/

/-- C12: during `as_html(D)` every References marker, at top level or in a
chapter at any depth, renders as `<ol>`, one
`<li><a href="url">name (url)</a></li>` for each entry of `D.references` in
order, `</ol>`; the list is the one of `D` itself, and without references it
is `<ol></ol>`. -/
theorem as_html_References_in_Document :
    (∀ (ch : Document) (g : Option Document),
      as_html_Document ch g = some (html_header1 ++ ch.text ++ html_header2
        ++ "<h1 class=\"title\" style=\"text-align:center\">" ++ ch.text ++ "</h1>"
        ++ String.join (ch.entries.map (entry_html ch))
        ++ String.join ((ch.subchapters.enumFrom 1).map
          (fun p => chapter_html ch (to_string_size p.1) p.2))
        ++ html_footer, none)) ∧
    (∀ (d : Document) (name : String) (level : Int) (text : String) (entries : List Entry)
      (subchapters : List Chapter),
      chapter_html d name (.mk level text entries subchapters)
        = heading name (.mk level text entries subchapters)
          ++ String.join (entries.map (chapter_entry_html d))
          ++ String.join (subchapters.enum.map
            (fun p => chapter_html d (name ++ "." ++ to_string_size (p.1 + 1)) p.2))) ∧
    (∀ d : Document, entry_html d .References = "<ol>" ++ String.join (d.references.map (fun r =>
      "<li><a href=\"" ++ r.text ++ "\">" ++ r.name ++ " (" ++ r.text ++ ")</a></li>"))
      ++ "</ol>") ∧
    (∀ d : Document, chapter_entry_html d .References
      = "<ol>" ++ String.join (d.references.map (fun r =>
        "<li><a href=\"" ++ r.text ++ "\">" ++ r.name ++ " (" ++ r.text ++ ")</a></li>"))
        ++ "</ol>") ∧
    (∀ d : Document, as_html_References (some d)
      = some ("<ol>" ++ String.join (d.references.map (fun r =>
        "<li><a href=\"" ++ r.text ++ "\">" ++ r.name ++ " (" ++ r.text ++ ")</a></li>"))
        ++ "</ol>")) ∧
    (∀ (text : String) (entries : List Entry) (subchapters : List Chapter),
      as_html_References (some ⟨text, entries, subchapters, []⟩) = some "<ol></ol>") ∧
    as_html_Document
        ⟨"T", [.References], [.mk 1 "A" [] [.mk 2 "B" [.References] []]], [⟨"n", "u"⟩, ⟨"m", "v"⟩]⟩
        none
      = some (html_header1 ++ "T" ++ html_header2
        ++ "<h1 class=\"title\" style=\"text-align:center\">" ++ "T" ++ "</h1>"
        ++ "<ol><li><a href=\"u\">n (u)</a></li><li><a href=\"v\">m (v)</a></li></ol>"
        ++ heading "1" (.mk 1 "A" [] [.mk 2 "B" [.References] []])
        ++ heading "1.1" (.mk 2 "B" [.References] [])
        ++ "<ol><li><a href=\"u\">n (u)</a></li><li><a href=\"v\">m (v)</a></li></ol>"
        ++ html_footer, none) := by
  refine ⟨as_html_Document_eq, ?_, ?_, ?_, ?_, ?_, ?_⟩
  · intro d name level text entries subchapters
    rw [chapter_html, subchapters_html_eq]
    rfl
  · intro d
    exact references_list_eq d
  · intro d
    exact references_list_eq d
  · intro d
    rw [as_html_References, references_list_eq]
  · intro text entries subchapters
    rfl
  · have n1 : to_string_size 1 = "1" := by decide
    have n01 : to_string_size (0 + 1) = "1" := by decide
    have n11 : "1" ++ ("." ++ "1") = "1.1" := by decide
    have hl : references_list
        ⟨"T", [.References], [.mk 1 "A" [] [.mk 2 "B" [.References] []]], [⟨"n", "u"⟩, ⟨"m", "v"⟩]⟩
        = "<ol><li><a href=\"u\">n (u)</a></li><li><a href=\"v\">m (v)</a></li></ol>" := by
      decide
    rw [as_html_Document_eq]
    simp only [List.enumFrom_cons, List.enumFrom_nil, List.map_cons, List.map_nil, join_cons,
      join_nil, chapter_html, subchapters_html, entry_html, chapter_entry_html, n1, n01, n11, hl,
      String.append_empty, String.append_assoc, String.empty_append]


/-- C13, as stated, fails: with no Document bound (null pointer `doc`) the
References rule does not return the empty list `<ol></ol>`; the dereference
of the null pointer has no defined result. -/
theorem as_html_References_null_not_empty_list :
    as_html_References none ≠ some "<ol></ol>" := by
  intro h
  cases h

/-- C13, amended: the References rule is not guarded; it dereferences the
pointer `doc` unconditionally, so with a null pointer it has no defined
result (and neither has a chapter holding the marker), while with a Document
bound it returns the list of that Document, `<ol></ol>` when it has no
references. -/
theorem as_html_References_unguarded :
    as_html_References none = none ∧
      as_html_Entry none .References = none ∧
      as_html_Chapter_Entry none .References = none ∧
      as_html_Chapter none "1" (.mk 1 "A" [.References] []) = none ∧
      (∀ d : Document, as_html_References (some d)
        = some ("<ol>" ++ String.join (d.references.map (fun r =>
          "<li><a href=\"" ++ r.text ++ "\">" ++ r.name ++ " (" ++ r.text ++ ")</a></li>"))
          ++ "</ol>")) ∧
      (∀ (text : String) (entries : List Entry) (subchapters : List Chapter),
        as_html_References (some ⟨text, entries, subchapters, []⟩) = some "<ol></ol>") := by
  refine ⟨rfl, rfl, rfl, by decide, fun d => ?_, fun _ _ _ => rfl⟩
  rw [as_html_References, references_list_eq]

/-- C14: `as_html(Document)` renders with the pointer `doc` bound to the
Document being rendered and leaves it null when it returns, whatever its
value before the call; so rendering `D2` after `D1` gives the output of
rendering `D2` from a fresh state and depends on no part of the reference
list of `D1`. -/
theorem as_html_Document_scope :
    (∀ (ch : Document) (g : Option Document),
      as_html_Document ch g =
        match entries_loop (as_html_Entry (some ch)) (html_header1 ++ ch.text ++ html_header2
            ++ ("<h1 class=\"title\" style=\"text-align:center\">" ++ ch.text ++ "</h1>"))
            ch.entries with
        | none => none
        | some accumulator =>
          match as_html_Document_chapters (some ch) accumulator 1 ch.subchapters with
          | none => none
          | some accumulator => some (accumulator ++ html_footer, none)) ∧
    (∀ (ch : Document) (g : Option Document), ∃ out, as_html_Document ch g = some (out, none)) ∧
    (∀ (ch : Document) (g g2 : Option Document), as_html_Document ch g = as_html_Document ch g2) ∧
    (∀ (d1 d2 : Document) (g : Option Document),
      (as_html_Document d1 g).bind (fun r => as_html_Document d2 r.2)
        = as_html_Document d2 none) ∧
    (∀ (d1 d2 : Document) (g : Option Document) (refs : List ReferenceEntry),
      (as_html_Document ⟨d1.text, d1.entries, d1.subchapters, refs⟩ g).bind
          (fun r => as_html_Document d2 r.2)
        = (as_html_Document d1 g).bind (fun r => as_html_Document d2 r.2)) := by
  refine ⟨fun _ _ => rfl, fun ch g => ⟨_, as_html_Document_eq ch g⟩, fun _ _ _ => rfl, ?_, ?_⟩
  · intro d1 d2 g
    rw [as_html_Document_eq d1 g]
    rfl
  · intro d1 d2 g refs
    rw [as_html_Document_eq d1 g, as_html_Document_eq _ g]
    rfl

/-! ## Order of the output -/

theorem permute_map {α β : Type} (f : α → β) (p : List Nat) (l : List α) :
    permute p (l.map f) = (permute p l).map f := by
  induction p with
  | nil => rfl
  | cons i p ih =>
    unfold permute at ih ⊢
    rw [List.filterMap_cons, List.filterMap_cons, List.getElem?_map]
    cases l[i]? with
    | none => exact ih
    | some a => simp only [Option.map_some', List.map_cons, ih]

theorem entry_html_congr {d d2 : Document} (h : d.references = d2.references) (e : Entry) :
    entry_html d e = entry_html d2 e := by
  cases e <;> first | rfl | (simp only [entry_html, references_list, h])

theorem chapter_entry_html_congr {d d2 : Document} (h : d.references = d2.references)
    (e : Entry) : chapter_entry_html d e = chapter_entry_html d2 e := by
  cases e <;> first | rfl | (simp only [chapter_entry_html, entry_html, references_list, h])

mutual
theorem chapter_html_congr {d d2 : Document} (h : d.references = d2.references) (name : String) :
    ∀ ch : Chapter, chapter_html d name ch = chapter_html d2 name ch
  | .mk level text entries subchapters => by
    rw [chapter_html, chapter_html, subchapters_html_congr h name 0 subchapters,
      List.map_congr_left (fun e _ => chapter_entry_html_congr h e)]
theorem subchapters_html_congr {d d2 : Document} (h : d.references = d2.references)
    (name : String) (n : Nat) :
    ∀ subs : List Chapter, subchapters_html d name n subs = subchapters_html d2 name n subs
  | [] => by rw [subchapters_html, subchapters_html]
  | sub :: subs => by
    rw [subchapters_html, subchapters_html, chapter_html_congr h _ sub,
      subchapters_html_congr h name (n + 1) subs]
end


theorem string_append_left_cancel {a b c : String} (h : a ++ b = a ++ c) : b = c := by
  apply String.ext
  have := congrArg String.data h
  rw [String.data_append, String.data_append] at this
  exact List.append_cancel_left this

theorem string_append_right_cancel {a b c : String} (h : a ++ c = b ++ c) : a = b := by
  apply String.ext
  have := congrArg String.data h
  rw [String.data_append, String.data_append] at this
  exact List.append_cancel_right this

/-- C15, as stated, fails for chapter sequences: swapping the two top-level
chapters `A` and `B` of a Document does not give the original output with its
two chapter segments swapped, since each chapter is renumbered; the same
holds for the two sub-chapters of a Chapter. -/
theorem as_html_chapter_swap_renumbers :
    as_html_Document ⟨"T", [], permute [1, 0] [.mk 1 "A" [] [], .mk 1 "B" [] []], []⟩ none
      ≠ some (html_header1 ++ "T" ++ html_header2
        ++ "<h1 class=\"title\" style=\"text-align:center\">" ++ "T" ++ "</h1>"
        ++ String.join []
        ++ String.join (permute [1, 0]
          [chapter_html ⟨"T", [], [.mk 1 "A" [] [], .mk 1 "B" [] []], []⟩ "1" (.mk 1 "A" [] []),
            chapter_html ⟨"T", [], [.mk 1 "A" [] [], .mk 1 "B" [] []], []⟩ "2" (.mk 1 "B" [] [])])
        ++ html_footer, none) ∧
    as_html_Chapter none "3" (.mk 1 "P" [] (permute [1, 0] [.mk 2 "A" [] [], .mk 2 "B" [] []]))
      ≠ some (heading "3" (.mk 1 "P" [] [.mk 2 "A" [] [], .mk 2 "B" [] []])
        ++ String.join (permute [1, 0]
          [chapter_html ⟨"T", [], [], []⟩ "3.1" (.mk 2 "A" [] []),
            chapter_html ⟨"T", [], [], []⟩ "3.2" (.mk 2 "B" [] [])])) := by
  constructor
  · rw [as_html_Document_eq]
    intro h
    have h1 := congrArg Prod.fst (Option.some.inj h)
    simp only [String.append_assoc] at h1
    have h2 := string_append_left_cancel (string_append_left_cancel (string_append_left_cancel
      (string_append_left_cancel (string_append_left_cancel (string_append_left_cancel
      (string_append_left_cancel h1))))))
    have h3 := string_append_right_cancel h2
    revert h3
    decide
  · decide


/-- C15, amended: rendering is order-preserving. For every rearrangement of
the content items of a Document or of a Chapter, the output is the original
output with the content-item segments rearranged in the same way, each segment
and everything else unchanged. For every rearrangement of the chapters of a
Document or of the sub-chapters of a Chapter, the chapters are output in the
rearranged order, each rendered with the number of its new position. -/
theorem as_html_order_preserving :
    (∀ (ch : Document) (g : Option Document) (p : List Nat),
      as_html_Document ⟨ch.text, permute p ch.entries, ch.subchapters, ch.references⟩ g
        = some (html_header1 ++ ch.text ++ html_header2
          ++ "<h1 class=\"title\" style=\"text-align:center\">" ++ ch.text ++ "</h1>"
          ++ String.join (permute p (ch.entries.map (entry_html ch)))
          ++ String.join ((ch.subchapters.enumFrom 1).map
            (fun q => chapter_html ch (to_string_size q.1) q.2))
          ++ html_footer, none)) ∧
    (∀ (d : Document) (name : String) (level : Int) (text : String) (entries : List Entry)
      (subchapters : List Chapter) (p : List Nat),
      as_html_Chapter (some d) name (.mk level text (permute p entries) subchapters)
        = some (heading name (.mk level text entries subchapters)
          ++ String.join (permute p (entries.map (chapter_entry_html d)))
          ++ String.join (subchapters.enum.map
            (fun q => chapter_html d (name ++ "." ++ to_string_size (q.1 + 1)) q.2)))) ∧
    (∀ (ch : Document) (g : Option Document) (p : List Nat),
      as_html_Document ⟨ch.text, ch.entries, permute p ch.subchapters, ch.references⟩ g
        = some (html_header1 ++ ch.text ++ html_header2
          ++ "<h1 class=\"title\" style=\"text-align:center\">" ++ ch.text ++ "</h1>"
          ++ String.join (ch.entries.map (entry_html ch))
          ++ String.join (((permute p ch.subchapters).enumFrom 1).map
            (fun q => chapter_html ch (to_string_size q.1) q.2))
          ++ html_footer, none)) ∧
    (∀ (d : Document) (name : String) (level : Int) (text : String) (entries : List Entry)
      (subchapters : List Chapter) (p : List Nat),
      as_html_Chapter (some d) name (.mk level text entries (permute p subchapters))
        = some (heading name (.mk level text entries subchapters)
          ++ String.join (entries.map (chapter_entry_html d))
          ++ String.join ((permute p subchapters).enum.map
            (fun q => chapter_html d (name ++ "." ++ to_string_size (q.1 + 1)) q.2)))) ∧
    (∀ (d : Document) (name : String) (c : Chapter),
      as_html_Chapter (some d) name c = some (chapter_html d name c)) ∧
    permute [2, 0, 1] ["a", "b", "c"] = ["c", "a", "b"] := by
  refine ⟨?_, ?_, ?_, ?_, as_html_Chapter_bound, by decide⟩
  · intro ch g p
    have hr : (Document.mk ch.text (permute p ch.entries) ch.subchapters ch.references).references
        = ch.references := rfl
    rw [as_html_Document_eq, permute_map]
    simp only [funext (entry_html_congr hr),
      funext (fun name => funext (chapter_html_congr hr name))]
  · intro d name level text entries subchapters p
    rw [as_html_Chapter_bound, chapter_html, subchapters_html_eq, permute_map]
    rfl
  · intro ch g p
    have hr : (Document.mk ch.text ch.entries (permute p ch.subchapters) ch.references).references
        = ch.references := rfl
    rw [as_html_Document_eq]
    simp only [funext (entry_html_congr hr),
      funext (fun name => funext (chapter_html_congr hr name))]
  · intro d name level text entries subchapters p
    rw [as_html_Chapter_bound, chapter_html, subchapters_html_eq]
    rfl

end Fiets
